import Mathlib

/-
Verification development for the bridleway-log repository.

Shallow embedding of:
  * src/data/gpxfiles/process_activities.py (CSV matching, file moves,
    gzip decompression, FIT-to-GPX conversion, the main batch driver);
  * src/data/gpxfiles/analyze_activities.py (the analyze reconciliation);
  * src/backend/app/api/paths.py and src/backend/app/api/stats.py
    (the read API over the paths table).

Modelling conventions:
  * Python strings are Lean Strings; slicing, startswith, endswith and
    pathlib's with_suffix are implemented over the underlying character
    lists (strDrop, strStartsWith, strEndsWith, pyWithSuffix) with the
    same semantics, including pathlib's hidden-file rule for suffixes.
  * The external gzip and fitdecode libraries are abstracted by the
    FileData inductive: a gzip archive is a constructor wrapping its
    decompressed content, a FIT file is a constructor carrying its list
    of decoded frames; gunzip and decodeFit fail (like the libraries
    raise) on content of any other shape.
  * SQL floats and Python floats are modelled as rationals; Python's
    round(x, 3) (banker's rounding) is round3 via roundHalfEven.
  * fitdecode timestamps are datetime objects formatted with strftime;
    the frame's timestamp is modelled as the already-formatted string.
  * The filesystem directory is a list of (filename, FileData) entries
    read through fsGet; a per-file operation that raises in Python is
    caught by the script, and is modelled as leaving the map unchanged.
-/

namespace Bridleway

/-! ### String primitives with Python semantics -/

/-- Python s.startswith(t): is t an initial segment of s. -/
def strStartsWith (s t : String) : Bool := t.data.isPrefixOf s.data

/-- Python s.endswith(t): is t a final segment of s. -/
def strEndsWith (s t : String) : Bool := t.data.isSuffixOf s.data

/-- Python s[n:]: drop the first n characters. -/
def strDrop (s : String) (n : Nat) : String := String.mk (s.data.drop n)

/-- pathlib's Path(s).with_suffix(t) on a bare filename: the suffix is the
part of the name from its last dot on, provided that dot is neither the
first nor the last character (a leading dot marks a hidden file with no
suffix); with_suffix replaces the suffix by t, or appends t when there is
no suffix. -/
def pyWithSuffix (s t : String) : String :=
  let l := s.data
  let afterDot := (l.reverse.takeWhile (fun c => c ≠ '.'))
  if afterDot.length + 1 < l.length ∧ 0 < afterDot.length then
    String.mk (l.take (l.length - afterDot.length - 1)) ++ t
  else s ++ t

/-- filepath.with_suffix('') as used on .gpx.gz / .fit.gz names. -/
def stripGz (s : String) : String := pyWithSuffix s ""

/-- fit_path.with_suffix('.gpx') as used on the temporary .fit name. -/
def toGpxName (s : String) : String := pyWithSuffix s ".gpx"

/-! ### FIT frames and GPX points (process_activities.fit_to_gpx) -/

/-- One frame decoded by fitdecode.  isData models
isinstance(frame, fitdecode.FitDataMessage); getValue results for the
fields read by fit_to_gpx are carried as optional values.  Latitudes and
longitudes are raw 32-bit semicircle integers; the timestamp is carried
as its strftime('%Y-%m-%dT%H:%M:%SZ') rendering. -/
structure FitFrame where
  isData : Bool
  name : String
  position_lat : Option Int
  position_long : Option Int
  altitude : Option ℚ
  timestamp : Option String
deriving DecidableEq

/-- One GPX track point as assembled by fit_to_gpx. -/
structure GpxPoint where
  lat : ℚ
  lon : ℚ
  ele : Option ℚ
  time : Option String
deriving DecidableEq

/-- Semicircle-to-degrees conversion: lat * (180 / 2**31).  The Python
float constant 180 / 2**31 is exactly representable (45 * 2^-29), so the
rational product models the float product exactly at the claimed input. -/
def semicircleToDeg (v : ℤ) : ℚ := v * (180 / 2 ^ 31)

/-- The per-frame point extraction of fit_to_gpx: only 'record' data
messages with both position_lat and position_long present contribute a
point; altitude and timestamp are optional extras. -/
def frameToPoint (fr : FitFrame) : Option GpxPoint :=
  if fr.isData = true ∧ fr.name = "record" then
    match fr.position_lat, fr.position_long with
    | some la, some lo =>
        some { lat := semicircleToDeg la, lon := semicircleToDeg lo,
               ele := fr.altitude, time := fr.timestamp }
    | _, _ => none
  else none

/-- The points list accumulated by fit_to_gpx over a decoded FIT stream. -/
def usablePoints (frames : List FitFrame) : List GpxPoint :=
  frames.filterMap frameToPoint

/-! ### Rounding and fixed-point formatting (Python round / f-strings) -/

/-- Floor of a rational (denominator is positive by the Rat invariant). -/
def ratFloor (q : ℚ) : ℤ := q.num.fdiv q.den

/-- Round half to even, Python's round() tie-breaking. -/
def roundHalfEven (q : ℚ) : ℤ :=
  let f := ratFloor q
  let r := q - (f : ℚ)
  if r < 1 / 2 then f
  else if 1 / 2 < r then f + 1
  else if f % 2 = 0 then f else f + 1

/-- Python round(x, 3). -/
def round3 (q : ℚ) : ℚ := ((roundHalfEven (q * 1000) : ℚ)) / 1000

/-- Python f'{x:.p f}': fixed-point rendering with p fractional digits. -/
def fmtFixed (q : ℚ) (prec : Nat) : String :=
  let scaled := roundHalfEven (q * ((10 : ℚ) ^ prec))
  let n := scaled.natAbs
  let intPart := n / 10 ^ prec
  let fracPart := n % 10 ^ prec
  let fracDigits := toString fracPart
  let fracPadded :=
    String.mk (List.replicate (prec - fracDigits.length) '0') ++ fracDigits
  (if scaled < 0 then "-" else "") ++ toString intPart ++
    (if prec = 0 then "" else "." ++ fracPadded)

/-! ### GPX serialization (process_activities.generate_gpx) -/

/-- The lines emitted for one track point. -/
def trkptLines (pt : GpxPoint) : List String :=
  ["      <trkpt lat=\"" ++ fmtFixed pt.lat 7 ++ "\" lon=\"" ++
      fmtFixed pt.lon 7 ++ "\">"] ++
  (match pt.ele with
   | some e => ["        <ele>" ++ fmtFixed e 1 ++ "</ele>"]
   | none => []) ++
  (match pt.time with
   | some t => ["        <time>" ++ t ++ "</time>"]
   | none => []) ++
  ["      </trkpt>"]

/-- generate_gpx: the minimal single-track single-segment GPX document. -/
def generate_gpx (pts : List GpxPoint) : String :=
  String.intercalate "\n"
    (["<?xml version=\"1.0\" encoding=\"UTF-8\"?>",
      "<gpx version=\"1.1\" creator=\"activities_processor\"",
      "  xmlns=\"http://www.topografix.com/GPX/1/1\"",
      "  xmlns:xsi=\"http://www.w3.org/2001/XMLSchema-instance\"",
      "  xsi:schemaLocation=\"http://www.topografix.com/GPX/1/1 http://www.topografix.com/GPX/1/1/gpx.xsd\">",
      "  <trk>",
      "    <name>Activity</name>",
      "    <trkseg>"] ++
     pts.flatMap trkptLines ++
     ["    </trkseg>", "  </trk>", "</gpx>"])

/-! ### File contents and the external decoders -/

/-- Abstract file contents: opaque text, decoded FIT frame streams, and
gzip archives wrapping their decompressed content. -/
inductive FileData where
  | text : String → FileData
  | fit : List FitFrame → FileData
  | gz : FileData → FileData
deriving DecidableEq

/-- gzip decompression: succeeds exactly on gzip archives; reading any
other content raises BadGzipFile, modelled as an error. -/
def gunzip : FileData → Except String FileData
  | .gz d => .ok d
  | _ => .error "Not a gzipped file"

/-- fitdecode.FitReader: succeeds exactly on FIT content. -/
def decodeFit : FileData → Except String (List FitFrame)
  | .fit frames => .ok frames
  | _ => .error "Not a FIT file"

/-- fit_to_gpx on decompressed content: decode the FIT stream, collect
usable points, fail with the fixed message when none remain, otherwise
produce the GPX document text.  Exceptions inside the Python function are
caught there and returned as (False, str(e)), which is the error case. -/
def fit_to_gpx (d : FileData) : Except String String :=
  match decodeFit d with
  | .error e => .error e
  | .ok frames =>
      let pts := usablePoints frames
      if pts.isEmpty then .error "No GPS points found in FIT file"
      else .ok (generate_gpx pts)

/-- Observable effect of convert_fit_gz on one .fit.gz file: whether the
conversion succeeded, the failure message, the GPX text written (none if
no GPX file was written), the final content at the temporary .fit path
(none if absent at the end), and whether the original .fit.gz was
deleted. -/
structure ConvEffect where
  success : Bool
  message : String
  gpxOut : Option String
  tmpFinal : Option FileData
  origRemoved : Bool
deriving DecidableEq

/-- convert_fit_gz, summarised as its effect on the three paths involved,
as a function of the original compressed content.  On a decompression
error the partially-created temporary file is removed by the cleanup
handler; on a conversion error the temporary file is written then removed;
on success the GPX is written, the temporary file is removed, and the
original is deleted. -/
def convert_fit_gz (orig : FileData) : ConvEffect :=
  match gunzip orig with
  | .error e =>
      { success := false, message := e, gpxOut := none,
        tmpFinal := none, origRemoved := false }
  | .ok inner =>
      match fit_to_gpx inner with
      | .error m =>
          { success := false, message := m, gpxOut := none,
            tmpFinal := none, origRemoved := false }
      | .ok g =>
          { success := true, message := "", gpxOut := some g,
            tmpFinal := none, origRemoved := true }

/-! ### CSV manifests -/

/-- process_activities.get_csv_files: keep rows whose Filename is
non-empty and starts with 'activities/', strip that 11-character leading
piece, and skip names that become empty.  The result is the set of
expected filenames (membership in the returned list). -/
def get_csv_files (rows : List String) : List String :=
  rows.filterMap (fun f =>
    if f ≠ "" ∧ strStartsWith f "activities/" = true then
      let g := strDrop f 11
      if g ≠ "" then some g else none
    else none)

/-- analyze_activities.analyze, CSV side: every row contributes a key;
the 'activities/' piece is stripped when present, and the raw Filename is
kept verbatim otherwise. -/
def analyze_csv_files (rows : List String) : List String :=
  rows.map (fun f =>
    if strStartsWith f "activities/" = true then strDrop f 11 else f)

/-! ### The directory as a finite map -/

/-- The files of one directory: (name, content) entries. -/
abbrev FsMap : Type := List (String × FileData)

/-- Content lookup by filename. -/
def fsGet : FsMap → String → Option FileData
  | [], _ => none
  | e :: t, n => if e.1 = n then some e.2 else fsGet t n

/-- Delete a filename. -/
def fsErase : FsMap → String → FsMap
  | [], _ => []
  | e :: t, n => if e.1 = n then fsErase t n else e :: fsErase t n

/-- Create or overwrite a file (open(..., 'wb') truncates). -/
def fsWrite (fs : FsMap) (n : String) (d : FileData) : FsMap :=
  (n, d) :: fsErase fs n

/-- One iteration of move_unmatched_files: shutil.move of one name from
the activities map to the unmatched map; a missing source raises, which
is caught and counted, leaving both maps unchanged. -/
def moveStep (p : FsMap × FsMap) (n : String) : FsMap × FsMap :=
  match fsGet p.1 n with
  | some d => (fsErase p.1 n, fsWrite p.2 n d)
  | none => p

/-- decompress_gpx_gz on one matched .gpx.gz name: decompress to the
.gz-stripped sibling, then delete the original; a failure (missing file
or non-gzip content) is reported and skipped. -/
def decompressStep (a : FsMap) (x : String) : FsMap :=
  match fsGet a x with
  | none => a
  | some c =>
      match gunzip c with
      | .error _ => a
      | .ok inner => fsErase (fsWrite a (stripGz x) inner) x

/-- convert_fit_gz on one matched .fit.gz name, as a directory-map
transformer: decompress to the temporary .fit path, convert, write the
.gpx output, remove the temporary file, and delete the original only on
success; on failure the temporary file is removed and the original kept. -/
def convertStep (a : FsMap) (x : String) : FsMap :=
  let fitp := stripGz x
  let gpxp := toGpxName fitp
  match fsGet a x with
  | none => a
  | some c =>
      match gunzip c with
      | .error _ => fsErase a fitp
      | .ok inner =>
          match fit_to_gpx inner with
          | .error _ => fsErase (fsWrite a fitp inner) fitp
          | .ok g =>
              fsErase (fsErase (fsWrite (fsWrite a fitp inner) gpxp
                (FileData.text g)) fitp) x

/-- The directory state seen by the scripts: the activities.csv Filename
column, the activities directory, and the unmatched directory. -/
structure DirState where
  csvRows : List String
  activities : FsMap
  unmatchedDir : FsMap
deriving DecidableEq

/-- process_activities.main: compute the matched/unmatched partition,
move unmatched files aside, decompress matched .gpx.gz files, convert
matched .fit.gz files (fitdecode available). -/
def main (st : DirState) : DirState :=
  let csvF := get_csv_files st.csvRows
  let actual := st.activities.map Prod.fst
  let unmatched := actual.filter (fun f => f ∉ csvF)
  let matched := actual.filter (fun f => f ∈ csvF)
  let matchedGpxGz := matched.filter (fun f => strEndsWith f ".gpx.gz" = true)
  let matchedFitGz := matched.filter (fun f => strEndsWith f ".fit.gz" = true)
  let moved := unmatched.foldl moveStep (st.activities, st.unmatchedDir)
  let afterGpx := matchedGpxGz.foldl decompressStep moved.1
  let afterFit := matchedFitGz.foldl convertStep afterGpx
  { st with activities := afterFit, unmatchedDir := moved.2 }

/-! ### Backend data model (models.Path) and the read API -/

/-- One row of the paths table. -/
structure PathRec where
  id : Int
  source_fid : Option String
  route_code : Option String
  name : Option String
  path_type : Option String
  area : Option String
  geometry : Option (List (ℚ × ℚ))
  length_km : Option ℚ
deriving DecidableEq

/-- One GeoJSON feature as built by api.paths.get_paths. -/
structure Feature where
  id : Int
  source_fid : Option String
  route_code : Option String
  name : Option String
  path_type : Option String
  area : Option String
  length_km : Option ℚ
  geometry : Option (List (ℚ × ℚ))
deriving DecidableEq

/-- Feature construction: properties carry the scalar columns, with
length_km rendered as round(p.length_km, 3) if p.length_km else None
(Python truthiness: both a missing and a zero stored length give None). -/
def mkFeature (p : PathRec) : Feature :=
  { id := p.id, source_fid := p.source_fid, route_code := p.route_code,
    name := p.name, path_type := p.path_type, area := p.area,
    length_km :=
      match p.length_km with
      | some q => if q = 0 then none else some (round3 q)
      | none => none,
    geometry := p.geometry }

/-- The query of get_paths: `if area:` / `if path_type:` add an SQL
IN-filter only for a non-empty parameter list; a NULL column value never
satisfies IN. -/
def filterPaths (store : List PathRec) (area pathType : Option (List String)) :
    List PathRec :=
  let s1 :=
    match area with
    | some l => if l.isEmpty then store
                else store.filter (fun p => ∃ v ∈ l, p.area = some v)
    | none => store
  match pathType with
  | some l => if l.isEmpty then s1
              else s1.filter (fun p => ∃ v ∈ l, p.path_type = some v)
  | none => s1

/-- api.paths.get_paths: the features of the filtered records. -/
def get_paths (store : List PathRec) (area pathType : Option (List String)) :
    List Feature :=
  (filterPaths store area pathType).map mkFeature

/-- The SQL ordering on a nullable text column (strings ascending; the
placement of NULL is irrelevant to the endpoints, which drop it). -/
def optLE (a b : Option String) : Prop :=
  match a, b with
  | none, _ => True
  | some _, none => False
  | some x, some y => x ≤ y

instance : DecidableRel optLE := fun a b =>
  match a, b with
  | none, _ => isTrue trivial
  | some _, none => isFalse (fun h => h)
  | some x, some y => inferInstanceAs (Decidable (x ≤ y))

instance : IsTrans (Option String) optLE where
  trans a b c hab hbc := by
    cases a <;> cases b <;> cases c <;> simp_all [optLE]
    exact le_trans hab hbc

instance : IsTotal (Option String) optLE where
  total a b := by
    cases a <;> cases b <;> simp [optLE]
    exact le_total _ _

/-- SELECT DISTINCT col ... ORDER BY col: the distinct values, sorted. -/
def distinctSorted (vals : List (Option String)) : List (Option String) :=
  vals.dedup.insertionSort optLE

/-- The Python comprehension filter `if t[0]`: keep truthy values only
(drop NULL and the empty string). -/
def truthyStr : Option String → Option String
  | some s => if s = "" then none else some s
  | none => none

/-- api.paths.get_path_types. -/
def get_path_types (store : List PathRec) : List String :=
  (distinctSorted (store.map (fun p => p.path_type))).filterMap truthyStr

/-- api.stats.get_areas. -/
def get_areas (store : List PathRec) : List String :=
  (distinctSorted (store.map (fun p => p.area))).filterMap truthyStr

/-- Python `value or "Unknown"`: falsy group keys (None and the empty
string) are replaced by the placeholder. -/
def pyOrUnknown : Option String → String
  | some s => if s = "" then "Unknown" else s
  | none => "Unknown"

/-- One group's aggregate in the stats response. -/
structure GroupStat where
  count : Nat
  length_km : ℚ
deriving DecidableEq

/-- SUM(length_km) over some rows, with `or 0` applied to the SQL NULL
result: equal to summing length_km with NULL read as 0. -/
def sumLenD (l : List PathRec) : ℚ :=
  (l.map (fun p => p.length_km.getD 0)).sum

/-- One group's aggregate, for the rows whose selected column equals the
group value g: the group row count and the group length sum rounded to 3
decimals. -/
def groupStat (store : List PathRec) (f : PathRec → Option String)
    (g : Option String) : GroupStat :=
  { count := (store.filter (fun p => f p = g)).length,
    length_km := round3 (sumLenD (store.filter (fun p => f p = g))) }

/-- Python dict assignment `m[k] = v` on an ordered association list with
distinct keys: update the existing entry in place, or append the new key
at the end. -/
def dictSet : List (String × GroupStat) → String → GroupStat →
    List (String × GroupStat)
  | [], k, v => [(k, v)]
  | e :: t, k, v => if e.1 = k then (k, v) :: t else e :: dictSet t k v

/-- Python dict lookup m[k]. -/
def dictGet : List (String × GroupStat) → String → Option GroupStat
  | [], _ => none
  | e :: t, k => if e.1 = k then some e.2 else dictGet t k

/-- The by_type loop of api.stats.get_stats: for each group of the SQL
group-by (one per distinct path_type value, iterated here in
first-occurrence order), the dict assignment
`by_type[path_type or "Unknown"] = {count, length}`.  Groups whose keys
collide on "Unknown" overwrite each other, last assignment winning. -/
def by_type (store : List PathRec) : List (String × GroupStat) :=
  ((store.map (fun p => p.path_type)).dedup).foldl
    (fun m g => dictSet m (pyOrUnknown g)
      (groupStat store (fun p => p.path_type) g)) []

/-- The by_area loop of api.stats.get_stats, same dict build keyed by
`area or "Unknown"`. -/
def by_area (store : List PathRec) : List (String × GroupStat) :=
  ((store.map (fun p => p.area)).dedup).foldl
    (fun m g => dictSet m (pyOrUnknown g)
      (groupStat store (fun p => p.area) g)) []

/-- The stats response shape. -/
structure StatsOut where
  total_paths : Nat
  total_length_km : ℚ
  byType : List (String × GroupStat)
  byArea : List (String × GroupStat)
deriving DecidableEq

/-- api.stats.get_stats. -/
def get_stats (store : List PathRec) : StatsOut :=
  { total_paths := store.length,
    total_length_km := round3 (sumLenD store),
    byType := by_type store,
    byArea := by_area store }

/-! ### Helper lemmas: the directory map -/

theorem fsGet_eq_none_iff (fs : FsMap) (n : String) :
    fsGet fs n = none ↔ n ∉ fs.map Prod.fst := by
  induction fs with
  | nil => simp [fsGet]
  | cons e t ih =>
    rw [fsGet]
    by_cases he : e.1 = n
    · rw [if_pos he]
      simp only [List.map_cons, List.mem_cons]
      constructor
      · intro hc
        exact absurd hc (by simp)
      · intro hc
        exact absurd (Or.inl he.symm) hc
    · rw [if_neg he]
      simp only [List.map_cons, List.mem_cons, ih]
      constructor
      · intro hc hor
        rcases hor with h1 | h1
        · exact he h1.symm
        · exact hc h1
      · intro hc hm
        exact hc (Or.inr hm)

theorem mem_of_fsGet_eq_some {fs : FsMap} {n : String} {d : FileData}
    (h : fsGet fs n = some d) : (n, d) ∈ fs := by
  induction fs with
  | nil => simp [fsGet] at h
  | cons e t ih =>
    rw [fsGet] at h
    by_cases he : e.1 = n
    · rw [if_pos he] at h
      have he2 : e = (n, d) := by
        cases e
        simp only [Option.some_inj] at h
        simp_all
      rw [← he2]
      exact List.mem_cons_self _ _
    · rw [if_neg he] at h
      exact List.mem_cons_of_mem _ (ih h)

theorem fsGet_fsErase (fs : FsMap) (n m : String) :
    fsGet (fsErase fs n) m = if m = n then none else fsGet fs m := by
  induction fs with
  | nil => simp [fsErase, fsGet]
  | cons e t ih =>
    rw [fsErase]
    by_cases hk : e.1 = n
    · rw [if_pos hk, ih]
      by_cases hm : m = n
      · simp [hm]
      · rw [if_neg hm, if_neg hm, fsGet, if_neg (fun hc => hm (by rw [← hc, hk]))]
    · rw [if_neg hk, fsGet, fsGet]
      by_cases hme : e.1 = m
      · have hmn : ¬ m = n := fun hc => hk (by rw [hme, hc])
        simp [hme, hmn]
      · rw [if_neg hme, if_neg hme, ih]

theorem fsGet_fsWrite (fs : FsMap) (n : String) (d : FileData) (m : String) :
    fsGet (fsWrite fs n d) m = if m = n then some d else fsGet fs m := by
  rw [fsWrite, fsGet]
  by_cases hm : m = n
  · simp [hm]
  · simp only [hm, if_false]
    rw [if_neg (fun hc => hm hc.symm), fsGet_fsErase, if_neg hm]

theorem fsGet_moveStep_fst (p : FsMap × FsMap) (n m : String) :
    fsGet (moveStep p n).1 m = if m = n then none else fsGet p.1 m := by
  rw [moveStep]
  cases hg : fsGet p.1 n with
  | none =>
    by_cases hm : m = n
    · simp [hm, hg]
    · simp [hm]
  | some d => simp [fsGet_fsErase]

theorem fsGet_foldl_moveStep (L : List String) (p : FsMap × FsMap) (m : String) :
    fsGet (L.foldl moveStep p).1 m = if m ∈ L then none else fsGet p.1 m := by
  induction L generalizing p with
  | nil => simp
  | cons x t ih =>
    rw [List.foldl_cons, ih, fsGet_moveStep_fst]
    by_cases hmt : m ∈ t
    · simp [hmt]
    · by_cases hmx : m = x
      · simp [hmt, hmx]
      · simp [hmt, hmx]

theorem foldl_fsGet_preserve {step : FsMap → String → FsMap} (L : List String)
    (a : FsMap) (m : String)
    (h : ∀ b x, x ∈ L → fsGet (step b x) m = fsGet b m) :
    fsGet (L.foldl step a) m = fsGet a m := by
  induction L generalizing a with
  | nil => simp
  | cons x t ih =>
    rw [List.foldl_cons]
    rw [ih (step a x) (fun b y hy => h b y (List.mem_cons_of_mem _ hy))]
    exact h a x (List.mem_cons_self _ _)

theorem foldl_fsGet_option {step : FsMap → String → FsMap} (L : List String)
    (a : FsMap) (m : String)
    (h : ∀ b x, x ∈ L →
      fsGet (step b x) m = fsGet b m ∨ fsGet (step b x) m = none) :
    fsGet (L.foldl step a) m = fsGet a m ∨ fsGet (L.foldl step a) m = none := by
  induction L generalizing a with
  | nil => simp
  | cons x t ih =>
    rw [List.foldl_cons]
    rcases ih (step a x) (fun b y hy => h b y (List.mem_cons_of_mem _ hy)) with h1 | h1
    · rcases h a x (List.mem_cons_self _ _) with h2 | h2
      · exact Or.inl (h1.trans h2)
      · exact Or.inr (h1.trans h2)
    · exact Or.inr h1

/-! ### Helper lemmas: filename suffixes -/

theorem strEndsWith_iff (s t : String) :
    strEndsWith s t = true ↔ ∃ y, s.data = y ++ t.data := by
  rw [strEndsWith, List.isSuffixOf_iff_suffix]
  constructor
  · rintro ⟨y, hy⟩
    exact ⟨y, hy.symm⟩
  · rintro ⟨y, hy⟩
    exact ⟨y, hy.symm⟩

theorem takeWhile_until_dot (a rest : List Char) (ha : '.' ∉ a) :
    (a ++ '.' :: rest).takeWhile (fun c => c ≠ '.') = a := by
  induction a with
  | nil => simp [List.takeWhile_cons]
  | cons c a' ih =>
    have hc : c ≠ '.' := fun hc => ha (hc ▸ List.mem_cons_self _ _)
    rw [List.cons_append, List.takeWhile_cons]
    rw [if_pos (by simpa using hc)]
    rw [ih (fun hm => ha (List.mem_cons_of_mem _ hm))]

theorem pyWithSuffix_replace (s t : String) (w v : List Char)
    (hs : s.data = w ++ '.' :: v) (hv : '.' ∉ v) (hvne : v ≠ []) (hw : w ≠ []) :
    (pyWithSuffix s t).data = w ++ t.data := by
  have hrev : s.data.reverse = v.reverse ++ '.' :: w.reverse := by
    rw [hs]
    simp
  have htw : s.data.reverse.takeWhile (fun c => c ≠ '.') = v.reverse := by
    rw [hrev, takeWhile_until_dot _ _ (by simp [hv])]
  have hlen : s.data.length = w.length + 1 + v.length := by
    rw [hs]; simp; omega
  have hcond : v.reverse.length + 1 < s.data.length ∧ 0 < v.reverse.length := by
    rw [List.length_reverse, hlen]
    constructor
    · have : 0 < w.length := List.length_pos.mpr hw
      omega
    · exact List.length_pos.mpr hvne
  rw [pyWithSuffix]
  simp only [htw, hcond, and_self, if_true, if_pos hcond]
  rw [String.data_append]
  congr 1
  have : s.data.length - v.reverse.length - 1 = w.length := by
    rw [List.length_reverse, hlen]; omega
  rw [this, hs]
  exact List.take_left w ('.' :: v)

theorem pyWithSuffix_hidden (s t : String) (v : List Char)
    (hs : s.data = '.' :: v) (hv : '.' ∉ v) :
    pyWithSuffix s t = s ++ t := by
  have hrev : s.data.reverse = v.reverse ++ '.' :: ([] : List Char) := by
    rw [hs]; simp
  have htw : s.data.reverse.takeWhile (fun c => c ≠ '.') = v.reverse := by
    rw [hrev, takeWhile_until_dot _ _ (by simp [hv])]
  have hlen : s.data.length = 1 + v.length := by rw [hs]; simp; omega
  rw [pyWithSuffix]
  simp only [htw]
  rw [if_neg]
  intro hcond
  rw [List.length_reverse, hlen] at hcond
  omega

theorem stripGz_gpxgz {x : String} (h : strEndsWith x ".gpx.gz" = true) :
    ∃ y, x.data = y ++ (".gpx.gz" : String).data ∧
      (stripGz x).data = y ++ (".gpx" : String).data := by
  obtain ⟨y, hy⟩ := (strEndsWith_iff x ".gpx.gz").mp h
  refine ⟨y, hy, ?_⟩
  rw [stripGz, pyWithSuffix_replace x "" (y ++ ['.', 'g', 'p', 'x']) ['g', 'z']
      (by rw [hy]; simp) (by decide) (by simp) (by simp)]
  simp

theorem stripGz_fitgz {x : String} (h : strEndsWith x ".fit.gz" = true) :
    ∃ y, x.data = y ++ (".fit.gz" : String).data ∧
      (stripGz x).data = y ++ (".fit" : String).data := by
  obtain ⟨y, hy⟩ := (strEndsWith_iff x ".fit.gz").mp h
  refine ⟨y, hy, ?_⟩
  rw [stripGz, pyWithSuffix_replace x "" (y ++ ['.', 'f', 'i', 't']) ['g', 'z']
      (by rw [hy]; simp) (by decide) (by simp) (by simp)]
  simp

theorem toGpxName_ends_gpx {s : String} (h : ∃ y, s.data = y ++ (".fit" : String).data) :
    ∃ z, (toGpxName s).data = z ++ (".gpx" : String).data := by
  obtain ⟨y, hy⟩ := h
  rcases List.eq_nil_or_concat y with hnil | _
  · subst hnil
    refine ⟨(".fit" : String).data, ?_⟩
    rw [toGpxName, pyWithSuffix_hidden s ".gpx" ['f', 'i', 't'] (by simp [hy])
        (by decide)]
    rw [String.data_append, hy]
    rfl
  · refine ⟨y, ?_⟩
    have hyne : y ≠ [] := by
      rintro rfl
      simp_all
    rw [toGpxName, pyWithSuffix_replace s ".gpx" y ['f', 'i', 't']
        (by simp [hy]) (by decide) (by simp) hyne]

theorem ends_ne_of_getLast {s : String} {u : List Char} (cu cv : Char)
    (hu : s.data = u ++ [cu]) (t : String) (v : List Char) (hv : t.data = v ++ [cv])
    (hne : cu ≠ cv) : strEndsWith s t = false := by
  by_contra hc
  have h : strEndsWith s t = true := by
    cases hst : strEndsWith s t
    · exact absurd hst hc
    · rfl
  obtain ⟨y, hy⟩ := (strEndsWith_iff s t).mp h
  have h1 : s.data.getLast? = some cu := by
    rw [hu, List.getLast?_append_of_ne_nil _ (by simp)]
    rfl
  have h2 : s.data.getLast? = some cv := by
    rw [hy, hv, ← List.append_assoc, List.getLast?_append_of_ne_nil _ (by simp)]
    rfl
  rw [h1] at h2
  exact hne (Option.some_inj.mp h2)

theorem not_gz_of_ends_gpx {s : String} (h : ∃ y, s.data = y ++ (".gpx" : String).data) :
    strEndsWith s ".gpx.gz" = false ∧ strEndsWith s ".fit.gz" = false := by
  obtain ⟨y, hy⟩ := h
  have hu : s.data = (y ++ ['.', 'g', 'p']) ++ ['x'] := by
    rw [hy]; simp
  constructor
  · exact ends_ne_of_getLast 'x' 'z' hu ".gpx.gz" ['.', 'g', 'p', 'x', '.', 'g'] rfl
      (by decide)
  · exact ends_ne_of_getLast 'x' 'z' hu ".fit.gz" ['.', 'f', 'i', 't', '.', 'g'] rfl
      (by decide)

theorem not_gz_of_ends_fit {s : String} (h : ∃ y, s.data = y ++ (".fit" : String).data) :
    strEndsWith s ".gpx.gz" = false ∧ strEndsWith s ".fit.gz" = false := by
  obtain ⟨y, hy⟩ := h
  have hu : s.data = (y ++ ['.', 'f', 'i']) ++ ['t'] := by
    rw [hy]; simp
  constructor
  · exact ends_ne_of_getLast 't' 'z' hu ".gpx.gz" ['.', 'g', 'p', 'x', '.', 'g'] rfl
      (by decide)
  · exact ends_ne_of_getLast 't' 'z' hu ".fit.gz" ['.', 'f', 'i', 't', '.', 'g'] rfl
      (by decide)

/-! ### Helper lemmas: the decompress and convert steps -/

/-- A name that the move/decompress/convert selection suffixes match. -/
def gzTarget (n : String) : Prop :=
  strEndsWith n ".gpx.gz" = true ∨ strEndsWith n ".fit.gz" = true

/-- Is this content a gzip archive (so gunzip succeeds on it)? -/
def isGz : FileData → Bool
  | .gz _ => true
  | _ => false

/-- Is this content a gzip-wrapped FIT stream with at least one usable
point (so the whole convert pipeline succeeds on it)? -/
def isGoodFitGz : FileData → Bool
  | .gz (.fit fr) => !(usablePoints fr).isEmpty
  | _ => false

theorem not_gzTarget_stripGz_gpxgz {x : String}
    (hx : strEndsWith x ".gpx.gz" = true) : ¬ gzTarget (stripGz x) := by
  obtain ⟨y, _, h2⟩ := stripGz_gpxgz hx
  have := not_gz_of_ends_gpx ⟨y, h2⟩
  rintro (hc | hc) <;> simp_all

theorem not_gzTarget_stripGz_fitgz {x : String}
    (hx : strEndsWith x ".fit.gz" = true) : ¬ gzTarget (stripGz x) := by
  obtain ⟨y, _, h2⟩ := stripGz_fitgz hx
  have := not_gz_of_ends_fit ⟨y, h2⟩
  rintro (hc | hc) <;> simp_all

theorem not_gzTarget_toGpxName_stripGz_fitgz {x : String}
    (hx : strEndsWith x ".fit.gz" = true) : ¬ gzTarget (toGpxName (stripGz x)) := by
  obtain ⟨y, _, h2⟩ := stripGz_fitgz hx
  obtain ⟨z, hz⟩ := toGpxName_ends_gpx ⟨y, h2⟩
  have := not_gz_of_ends_gpx ⟨z, hz⟩
  rintro (hc | hc) <;> simp_all

theorem fsGet_decompressStep_other {a : FsMap} {x m : String}
    (h1 : m ≠ x) (h2 : m ≠ stripGz x) :
    fsGet (decompressStep a x) m = fsGet a m := by
  cases hg : fsGet a x with
  | none => simp only [decompressStep, hg]
  | some c =>
    cases c with
    | gz inner =>
      simp only [decompressStep, hg, gunzip]
      rw [fsGet_fsErase, if_neg h1, fsGet_fsWrite, if_neg h2]
    | text s => simp only [decompressStep, hg, gunzip]
    | fit fr => simp only [decompressStep, hg, gunzip]

theorem fsGet_decompressStep_option {a : FsMap} {x m : String}
    (hx : strEndsWith x ".gpx.gz" = true) (hm : gzTarget m) :
    fsGet (decompressStep a x) m = fsGet a m ∨
      fsGet (decompressStep a x) m = none := by
  have h2 : m ≠ stripGz x := fun hc => not_gzTarget_stripGz_gpxgz hx (hc ▸ hm)
  by_cases h1 : m = x
  · subst h1
    cases hg : fsGet a m with
    | none => exact Or.inr (by simp only [decompressStep, hg])
    | some c =>
      cases c with
      | gz inner =>
        refine Or.inr ?_
        simp only [decompressStep, hg, gunzip]
        rw [fsGet_fsErase, if_pos rfl]
      | text s => exact Or.inl (by simp only [decompressStep, hg, gunzip])
      | fit fr => exact Or.inl (by simp only [decompressStep, hg, gunzip])
  · exact Or.inl (fsGet_decompressStep_other h1 h2)

theorem fsGet_decompressStep_self {a : FsMap} {x : String}
    (hc : fsGet a x = none ∨ ∃ d, fsGet a x = some d ∧ isGz d = true) :
    fsGet (decompressStep a x) x = none := by
  rcases hc with hc | ⟨d, hd, hgz⟩
  · simp only [decompressStep, hc]
  · cases d with
    | gz inner =>
      simp only [decompressStep, hd, gunzip]
      rw [fsGet_fsErase, if_pos rfl]
    | text s => simp [isGz] at hgz
    | fit fr => simp [isGz] at hgz

theorem fsGet_convertStep_other {a : FsMap} {x m : String}
    (h1 : m ≠ x) (h2 : m ≠ stripGz x) (h3 : m ≠ toGpxName (stripGz x)) :
    fsGet (convertStep a x) m = fsGet a m := by
  cases hg : fsGet a x with
  | none => simp only [convertStep, hg]
  | some c =>
    cases c with
    | gz inner =>
      cases hf : fit_to_gpx inner with
      | error e =>
        simp only [convertStep, hg, gunzip, hf]
        rw [fsGet_fsErase, if_neg h2, fsGet_fsWrite, if_neg h2]
      | ok g =>
        simp only [convertStep, hg, gunzip, hf]
        rw [fsGet_fsErase, if_neg h1, fsGet_fsErase, if_neg h2,
          fsGet_fsWrite, if_neg h3, fsGet_fsWrite, if_neg h2]
    | text s =>
      simp only [convertStep, hg, gunzip]
      rw [fsGet_fsErase, if_neg h2]
    | fit fr =>
      simp only [convertStep, hg, gunzip]
      rw [fsGet_fsErase, if_neg h2]

theorem fsGet_convertStep_option {a : FsMap} {x m : String}
    (hx : strEndsWith x ".fit.gz" = true) (hm : gzTarget m) :
    fsGet (convertStep a x) m = fsGet a m ∨
      fsGet (convertStep a x) m = none := by
  have h2 : m ≠ stripGz x := fun hc => not_gzTarget_stripGz_fitgz hx (hc ▸ hm)
  have h3 : m ≠ toGpxName (stripGz x) := fun hc =>
    not_gzTarget_toGpxName_stripGz_fitgz hx (hc ▸ hm)
  by_cases h1 : m = x
  · subst h1
    cases hg : fsGet a m with
    | none => exact Or.inr (by simp only [convertStep, hg])
    | some c =>
      cases c with
      | gz inner =>
        cases hf : fit_to_gpx inner with
        | error e =>
          refine Or.inl ?_
          simp only [convertStep, hg, gunzip, hf]
          rw [fsGet_fsErase, if_neg h2, fsGet_fsWrite, if_neg h2, hg]
        | ok g =>
          refine Or.inr ?_
          simp only [convertStep, hg, gunzip, hf]
          rw [fsGet_fsErase, if_pos rfl]
      | text s =>
        refine Or.inl ?_
        simp only [convertStep, hg, gunzip]
        rw [fsGet_fsErase, if_neg h2, hg]
      | fit fr =>
        refine Or.inl ?_
        simp only [convertStep, hg, gunzip]
        rw [fsGet_fsErase, if_neg h2, hg]
  · exact Or.inl (fsGet_convertStep_other h1 h2 h3)

theorem fsGet_convertStep_self {a : FsMap} {x : String}
    (hc : fsGet a x = none ∨ ∃ d, fsGet a x = some d ∧ isGoodFitGz d = true) :
    fsGet (convertStep a x) x = none := by
  rcases hc with hc | ⟨d, hd, hgood⟩
  · simp only [convertStep, hc]
  · cases d with
    | gz inner =>
      cases inner with
      | fit fr =>
        have hne : (usablePoints fr).isEmpty = false := by
          simp only [isGoodFitGz] at hgood
          cases hie : (usablePoints fr).isEmpty
          · rfl
          · rw [hie] at hgood
            simp at hgood
        have hfit : fit_to_gpx (FileData.fit fr) =
            Except.ok (generate_gpx (usablePoints fr)) := by
          rw [fit_to_gpx, decodeFit]
          simp only [hne, Bool.false_eq_true, if_false]
        simp only [convertStep, hd, gunzip, hfit]
        rw [fsGet_fsErase, if_pos rfl]
      | text s => simp [isGoodFitGz] at hgood
      | gz d2 => simp [isGoodFitGz] at hgood
    | text s => simp [isGoodFitGz] at hgood
    | fit fr => simp [isGoodFitGz] at hgood

theorem foldl_decompress_erase (L : List String) (a : FsMap) (m : String)
    (hall : ∀ x ∈ L, strEndsWith x ".gpx.gz" = true) (hm : m ∈ L)
    (hgood : fsGet a m = none ∨ ∃ d, fsGet a m = some d ∧ isGz d = true) :
    fsGet (L.foldl decompressStep a) m = none := by
  induction L generalizing a with
  | nil => simp at hm
  | cons x t ih =>
    have hmt : gzTarget m := Or.inl (hall m hm)
    rw [List.foldl_cons]
    rcases List.mem_cons.mp hm with hmx | hmem
    · subst hmx
      have hstep : fsGet (decompressStep a m) m = none :=
        fsGet_decompressStep_self hgood
      rcases foldl_fsGet_option t (decompressStep a m) m
          (fun b y hy => fsGet_decompressStep_option
            (hall y (List.mem_cons_of_mem _ hy)) hmt) with h1 | h1
      · rw [h1, hstep]
      · exact h1
    · refine ih (decompressStep a x) (fun y hy => hall y (List.mem_cons_of_mem _ hy)) hmem ?_
      rcases fsGet_decompressStep_option (hall x (List.mem_cons_self _ _)) hmt
          (a := a) (m := m) with h1 | h1
      · rw [h1]
        exact hgood
      · exact Or.inl h1

theorem foldl_convert_erase (L : List String) (a : FsMap) (m : String)
    (hall : ∀ x ∈ L, strEndsWith x ".fit.gz" = true) (hm : m ∈ L)
    (hgood : fsGet a m = none ∨ ∃ d, fsGet a m = some d ∧ isGoodFitGz d = true) :
    fsGet (L.foldl convertStep a) m = none := by
  induction L generalizing a with
  | nil => simp at hm
  | cons x t ih =>
    have hmt : gzTarget m := Or.inr (hall m hm)
    rw [List.foldl_cons]
    rcases List.mem_cons.mp hm with hmx | hmem
    · subst hmx
      have hstep : fsGet (convertStep a m) m = none :=
        fsGet_convertStep_self hgood
      rcases foldl_fsGet_option t (convertStep a m) m
          (fun b y hy => fsGet_convertStep_option
            (hall y (List.mem_cons_of_mem _ hy)) hmt) with h1 | h1
      · rw [h1, hstep]
      · exact h1
    · refine ih (convertStep a x) (fun y hy => hall y (List.mem_cons_of_mem _ hy)) hmem ?_
      rcases fsGet_convertStep_option (hall x (List.mem_cons_self _ _)) hmt
          (a := a) (m := m) with h1 | h1
      · rw [h1]
        exact hgood
      · exact Or.inl h1

/-- main's activities map, written out: the fit-conversion fold applied
after the gpx-decompression fold applied after the unmatched moves. -/
theorem main_activities (st : DirState) :
    (main st).activities =
      (((st.activities.map Prod.fst).filter
            (fun f => f ∈ get_csv_files st.csvRows)).filter
          (fun f => strEndsWith f ".fit.gz" = true)).foldl convertStep
        ((((st.activities.map Prod.fst).filter
              (fun f => f ∈ get_csv_files st.csvRows)).filter
            (fun f => strEndsWith f ".gpx.gz" = true)).foldl decompressStep
          (((st.activities.map Prod.fst).filter
              (fun f => f ∉ get_csv_files st.csvRows)).foldl
            moveStep (st.activities, st.unmatchedDir)).1) := rfl

/-! ### Claim C1 -/

/-- C1, counterexample: re-running main on an already-processed directory
is not a no-op.  Starting from a CSV listing activities/a.gpx.gz and that
one compressed file on disk, the first run decompresses it to a.gpx; the
name a.gpx is not in the CSV's expected set, so the second run classifies
it as unmatched and moves it out of the activities directory. -/
theorem c1_counterexample :
    fsGet (main
      { csvRows := ["activities/a.gpx.gz"],
        activities := [("a.gpx.gz", FileData.gz (FileData.text "x"))],
        unmatchedDir := [] }).activities "a.gpx" = some (FileData.text "x") ∧
    fsGet (main (main
      { csvRows := ["activities/a.gpx.gz"],
        activities := [("a.gpx.gz", FileData.gz (FileData.text "x"))],
        unmatchedDir := [] })).activities "a.gpx" = none ∧
    fsGet (main (main
      { csvRows := ["activities/a.gpx.gz"],
        activities := [("a.gpx.gz", FileData.gz (FileData.text "x"))],
        unmatchedDir := [] })).unmatchedDir "a.gpx" = some (FileData.text "x") ∧
    main (main
      { csvRows := ["activities/a.gpx.gz"],
        activities := [("a.gpx.gz", FileData.gz (FileData.text "x"))],
        unmatchedDir := [] }) ≠ main
      { csvRows := ["activities/a.gpx.gz"],
        activities := [("a.gpx.gz", FileData.gz (FileData.text "x"))],
        unmatchedDir := [] } := by
  refine ⟨by decide, by decide, by decide, by decide⟩

/-- C1 (amended): after one complete run of main in which every matched
.gpx.gz file held gzip content and every matched .fit.gz file held a
gzip-wrapped FIT stream with at least one usable point, no file matching
the decompress or convert selection predicates remains in the activities
directory (no name ends in .gpx.gz or .fit.gz), so a second run
decompresses and converts nothing; the second run may however still move
first-run outputs whose names are not in the CSV. -/
theorem c1_theorem (st : DirState)
    (hgz : ∀ e ∈ st.activities, e.1 ∈ get_csv_files st.csvRows →
      strEndsWith e.1 ".gpx.gz" = true → isGz e.2 = true)
    (hfit : ∀ e ∈ st.activities, e.1 ∈ get_csv_files st.csvRows →
      strEndsWith e.1 ".fit.gz" = true → isGoodFitGz e.2 = true)
    (n : String) (hn : gzTarget n) :
    fsGet (main st).activities n = none := by
  rw [main_activities]
  set csvF := get_csv_files st.csvRows with hcsvF
  set actual := st.activities.map Prod.fst with hactual
  set L2 := (actual.filter (fun f => f ∈ csvF)).filter
      (fun f => strEndsWith f ".gpx.gz" = true) with hL2def
  set L3 := (actual.filter (fun f => f ∈ csvF)).filter
      (fun f => strEndsWith f ".fit.gz" = true) with hL3def
  set a1 := ((actual.filter (fun f => f ∉ csvF)).foldl moveStep
      (st.activities, st.unmatchedDir)).1 with ha1def
  have hL2 : ∀ x ∈ L2, strEndsWith x ".gpx.gz" = true := by
    intro x hx
    rw [hL2def] at hx
    simpa using (List.mem_filter.mp hx).2
  have hL3 : ∀ x ∈ L3, strEndsWith x ".fit.gz" = true := by
    intro x hx
    rw [hL3def] at hx
    simpa using (List.mem_filter.mp hx).2
  have propagate : fsGet a1 n = none →
      fsGet (L3.foldl convertStep (L2.foldl decompressStep a1)) n = none := by
    intro h1
    have h2 : fsGet (L2.foldl decompressStep a1) n = none := by
      rcases foldl_fsGet_option L2 a1 n
          (fun b y hy => fsGet_decompressStep_option (hL2 y hy) hn) with h | h
      · rw [h, h1]
      · exact h
    rcases foldl_fsGet_option L3 (L2.foldl decompressStep a1) n
        (fun b y hy => fsGet_convertStep_option (hL3 y hy) hn) with h | h
    · rw [h, h2]
    · exact h
  by_cases hnact : n ∈ actual
  · by_cases hncsv : n ∈ csvF
    · have ha1n : fsGet a1 n = fsGet st.activities n := by
        rw [ha1def, fsGet_foldl_moveStep, if_neg]
        simp only [List.mem_filter, decide_eq_true_eq, not_and]
        intro _ hc
        exact absurd hncsv hc
      rcases hn with hend | hend
      · have hnL2 : n ∈ L2 := by
          rw [hL2def]
          simp only [List.mem_filter, decide_eq_true_eq]
          exact ⟨⟨hnact, hncsv⟩, hend⟩
        have hgood : fsGet a1 n = none ∨
            ∃ d, fsGet a1 n = some d ∧ isGz d = true := by
          rw [ha1n]
          cases hg : fsGet st.activities n with
          | none => exact Or.inl rfl
          | some d =>
            exact Or.inr ⟨d, rfl, hgz (n, d) (mem_of_fsGet_eq_some hg) hncsv hend⟩
        have h2 : fsGet (L2.foldl decompressStep a1) n = none :=
          foldl_decompress_erase L2 a1 n hL2 hnL2 hgood
        rcases foldl_fsGet_option L3 (L2.foldl decompressStep a1) n
            (fun b y hy => fsGet_convertStep_option (hL3 y hy) (Or.inl hend)) with h | h
        · rw [h, h2]
        · exact h
      · have hnL3 : n ∈ L3 := by
          rw [hL3def]
          simp only [List.mem_filter, decide_eq_true_eq]
          exact ⟨⟨hnact, hncsv⟩, hend⟩
        have hgood1 : fsGet a1 n = none ∨
            ∃ d, fsGet a1 n = some d ∧ isGoodFitGz d = true := by
          rw [ha1n]
          cases hg : fsGet st.activities n with
          | none => exact Or.inl rfl
          | some d =>
            exact Or.inr ⟨d, rfl, hfit (n, d) (mem_of_fsGet_eq_some hg) hncsv hend⟩
        have hgood2 : fsGet (L2.foldl decompressStep a1) n = none ∨
            ∃ d, fsGet (L2.foldl decompressStep a1) n = some d ∧
              isGoodFitGz d = true := by
          rcases foldl_fsGet_option L2 a1 n
              (fun b y hy => fsGet_decompressStep_option (hL2 y hy) (Or.inr hend)) with h | h
          · rw [h]
            exact hgood1
          · exact Or.inl h
        exact foldl_convert_erase L3 (L2.foldl decompressStep a1) n hL3 hnL3 hgood2
    · refine propagate ?_
      rw [ha1def, fsGet_foldl_moveStep, if_pos]
      simp only [List.mem_filter, decide_eq_true_eq]
      exact ⟨hnact, hncsv⟩
  · refine propagate ?_
    rw [ha1def, fsGet_foldl_moveStep]
    have h0 : fsGet st.activities n = none := by
      rw [fsGet_eq_none_iff]
      exact hnact
    by_cases hu : n ∈ actual.filter (fun f => f ∉ csvF)
    · rw [if_pos hu]
    · rw [if_neg hu]
      exact h0

/-- C1, witness: the amended theorem applied to the one-file state whose
single matched .gpx.gz entry is well-formed gzip content. -/
theorem c1_witness :
    fsGet (main
      { csvRows := ["activities/a.gpx.gz"],
        activities := [("a.gpx.gz", FileData.gz (FileData.text "x"))],
        unmatchedDir := [] }).activities "b.gpx.gz" = none :=
  c1_theorem
    { csvRows := ["activities/a.gpx.gz"],
      activities := [("a.gpx.gz", FileData.gz (FileData.text "x"))],
      unmatchedDir := [] }
    (by decide) (by decide) "b.gpx.gz" (Or.inl (by decide))

/-! ### Claim C10 -/

/-- C10, counterexample: a matched file ending in neither .gpx.gz nor
.fit.gz is not always left unchanged.  With both a.gpx and a.gpx.gz
matched, decompressing a.gpx.gz writes its decompressed content over the
matched plain a.gpx, changing that file's contents. -/
theorem c10_counterexample :
    fsGet
      { csvRows := ["activities/a.gpx", "activities/a.gpx.gz"],
        activities := [("a.gpx", FileData.text "orig"),
                       ("a.gpx.gz", FileData.gz (FileData.text "new"))],
        unmatchedDir := [] : DirState }.activities "a.gpx" =
      some (FileData.text "orig") ∧
    fsGet (main
      { csvRows := ["activities/a.gpx", "activities/a.gpx.gz"],
        activities := [("a.gpx", FileData.text "orig"),
                       ("a.gpx.gz", FileData.gz (FileData.text "new"))],
        unmatchedDir := [] }).activities "a.gpx" = some (FileData.text "new") ∧
    ("a.gpx" ∈ get_csv_files ["activities/a.gpx", "activities/a.gpx.gz"]) ∧
    strEndsWith "a.gpx" ".gpx.gz" = false ∧
    strEndsWith "a.gpx" ".fit.gz" = false := by
  refine ⟨by decide, by decide, by decide, by decide, by decide⟩

/-- C10 (amended): a matched file whose name ends in neither .gpx.gz nor
.fit.gz is left in the activities directory with unchanged contents by a
run of main, provided its name is not the derived output name (the
.gz-stripped name, or the .gpx name of the stripped .fit name) of any
matched .gpx.gz or .fit.gz file. -/
theorem c10_theorem (st : DirState) (f : String)
    (hmem : f ∈ st.activities.map Prod.fst)
    (hcsv : f ∈ get_csv_files st.csvRows)
    (hgpx : strEndsWith f ".gpx.gz" = false)
    (hfit : strEndsWith f ".fit.gz" = false)
    (hcol : ∀ g ∈ st.activities.map Prod.fst, g ∈ get_csv_files st.csvRows →
      (strEndsWith g ".gpx.gz" = true → stripGz g ≠ f) ∧
      (strEndsWith g ".fit.gz" = true →
        stripGz g ≠ f ∧ toGpxName (stripGz g) ≠ f)) :
    fsGet (main st).activities f = fsGet st.activities f ∧
      (fsGet st.activities f).isSome = true := by
  constructor
  · rw [main_activities]
    set csvF := get_csv_files st.csvRows with hcsvF
    set actual := st.activities.map Prod.fst with hactual
    set L2 := (actual.filter (fun g => g ∈ csvF)).filter
        (fun g => strEndsWith g ".gpx.gz" = true) with hL2def
    set L3 := (actual.filter (fun g => g ∈ csvF)).filter
        (fun g => strEndsWith g ".fit.gz" = true) with hL3def
    set a1 := ((actual.filter (fun g => g ∉ csvF)).foldl moveStep
        (st.activities, st.unmatchedDir)).1 with ha1def
    have ha1 : fsGet a1 f = fsGet st.activities f := by
      rw [ha1def, fsGet_foldl_moveStep, if_neg]
      simp only [List.mem_filter, decide_eq_true_eq, not_and]
      intro _ hc
      exact absurd hcsv hc
    have h2 : fsGet (L2.foldl decompressStep a1) f = fsGet a1 f := by
      refine foldl_fsGet_preserve L2 a1 f (fun b x hx => ?_)
      rw [hL2def] at hx
      simp only [List.mem_filter, decide_eq_true_eq] at hx
      obtain ⟨⟨hxact, hxcsv⟩, hxend⟩ := hx
      have hfx : f ≠ x := fun hc => by
        rw [hc] at hgpx
        rw [hxend] at hgpx
        exact absurd hgpx (by simp)
      have hfs : f ≠ stripGz x :=
        fun hc => ((hcol x hxact hxcsv).1 hxend) hc.symm
      exact fsGet_decompressStep_other hfx hfs
    have h3 : fsGet (L3.foldl convertStep (L2.foldl decompressStep a1)) f =
        fsGet (L2.foldl decompressStep a1) f := by
      refine foldl_fsGet_preserve L3 _ f (fun b x hx => ?_)
      rw [hL3def] at hx
      simp only [List.mem_filter, decide_eq_true_eq] at hx
      obtain ⟨⟨hxact, hxcsv⟩, hxend⟩ := hx
      have hfx : f ≠ x := fun hc => by
        rw [hc] at hfit
        rw [hxend] at hfit
        exact absurd hfit (by simp)
      have hfs : f ≠ stripGz x :=
        fun hc => (((hcol x hxact hxcsv).2 hxend).1) hc.symm
      have hfg : f ≠ toGpxName (stripGz x) :=
        fun hc => (((hcol x hxact hxcsv).2 hxend).2) hc.symm
      exact fsGet_convertStep_other hfx hfs hfg
    rw [h3, h2, ha1]
  · cases ho : fsGet st.activities f with
    | none => exact absurd ((fsGet_eq_none_iff _ _).mp ho) (by simpa using hmem)
    | some d => rfl

/-- C10, witness: the amended theorem applied to a state with one matched
plain-text file and no derived-name collisions. -/
theorem c10_witness :
    fsGet (main
      { csvRows := ["activities/k.txt"],
        activities := [("k.txt", FileData.text "c")],
        unmatchedDir := [] }).activities "k.txt" =
      fsGet [("k.txt", FileData.text "c")] "k.txt" ∧
    (fsGet [("k.txt", FileData.text "c")] "k.txt").isSome = true :=
  c10_theorem
    { csvRows := ["activities/k.txt"],
      activities := [("k.txt", FileData.text "c")],
      unmatchedDir := [] }
    "k.txt" (by decide) (by decide) (by decide) (by decide) (by decide)

/-! ### Claim C2 -/

/-- C2, counterexample: the two scripts do not compute the same expected
set on every manifest.  A row whose Filename lacks the activities/ lead
is skipped by get_csv_files but kept verbatim by analyze. -/
theorem c2_counterexample :
    "foo.gpx" ∈ analyze_csv_files ["foo.gpx"] ∧
    "foo.gpx" ∉ get_csv_files ["foo.gpx"] ∧
    get_csv_files ["foo.gpx"] = [] := by
  refine ⟨by decide, by decide, by decide⟩

/-- C2 (amended): on manifests in which every row's Filename starts with
the activities/ lead and still has a non-empty remainder after it, the
expected-filename sets of get_csv_files and analyze agree, so both
scripts derive the same matched/unmatched partition there. -/
theorem c2_theorem (rows : List String)
    (h : ∀ f ∈ rows, strStartsWith f "activities/" = true ∧ strDrop f 11 ≠ "")
    (n : String) : n ∈ get_csv_files rows ↔ n ∈ analyze_csv_files rows := by
  induction rows with
  | nil => simp [get_csv_files, analyze_csv_files]
  | cons f t ih =>
    have hf := h f (List.mem_cons_self _ _)
    have hfne : f ≠ "" := by
      intro hc
      rw [hc] at hf
      exact absurd hf.1 (by decide)
    rw [get_csv_files, analyze_csv_files, List.filterMap_cons, List.map_cons]
    rw [if_pos ⟨hfne, hf.1⟩]
    simp only [if_pos hf.2, if_pos hf.1]
    rw [List.mem_cons, List.mem_cons]
    rw [get_csv_files, analyze_csv_files] at ih
    rw [ih (fun g hg => h g (List.mem_cons_of_mem _ hg))]

/-- C2, witness: the amended equivalence at a one-row compliant manifest. -/
theorem c2_witness :
    "x.gpx" ∈ get_csv_files ["activities/x.gpx"] ↔
      "x.gpx" ∈ analyze_csv_files ["activities/x.gpx"] :=
  c2_theorem ["activities/x.gpx"] (by decide) "x.gpx"

/-! ### Claim C3 -/

/-- C3, counterexample: a record with a present, zero stored length is
returned by get_paths with a null length_km property, so null does not
occur exactly when the stored value is absent. -/
theorem c3_counterexample :
    (get_paths
        [{ id := 1, source_fid := none, route_code := none, name := none,
           path_type := none, area := none, geometry := none,
           length_km := some 0 }] none none).map (fun ft => ft.length_km) =
      [none] ∧
    ({ id := 1, source_fid := none, route_code := none, name := none,
       path_type := none, area := none, geometry := none,
       length_km := some 0 } : PathRec).length_km ≠ none := by
  refine ⟨by decide, by decide⟩

/-- C3 (amended): for every record returned by get_paths, the length_km
property is the stored length rounded to 3 decimal places whenever the
stored value is present and non-zero, and is null exactly when the stored
value is absent or zero (Python's `if p.length_km` is falsy on both). -/
theorem c3_theorem (store : List PathRec) (a t : Option (List String))
    (p : PathRec) (hp : p ∈ filterPaths store a t) :
    mkFeature p ∈ get_paths store a t ∧
    ((mkFeature p).length_km = none ↔
      p.length_km = none ∨ p.length_km = some 0) ∧
    (∀ q, p.length_km = some q → q ≠ 0 →
      (mkFeature p).length_km = some (round3 q)) := by
  refine ⟨List.mem_map_of_mem _ hp, ?_, ?_⟩
  · cases hq : p.length_km with
    | none => simp [mkFeature, hq]
    | some q =>
      by_cases h0 : q = 0
      · simp [mkFeature, hq, h0]
      · simp [mkFeature, hq, h0]
  · intro q hq hne
    simp [mkFeature, hq, hne]

/-- C3, witness: the amended characterisation at a one-record store with
stored length 1. -/
theorem c3_witness :
    (mkFeature
      { id := 1, source_fid := none, route_code := none,
        name := none, path_type := none, area := none, geometry := none,
        length_km := some 1 }).length_km = none ↔
      ({ id := 1, source_fid := none, route_code := none, name := none,
         path_type := none, area := none, geometry := none,
         length_km := some 1 } : PathRec).length_km = none ∨
      ({ id := 1, source_fid := none, route_code := none, name := none,
         path_type := none, area := none, geometry := none,
         length_km := some 1 } : PathRec).length_km = some 0 :=
  (c3_theorem
    [{ id := 1, source_fid := none, route_code := none, name := none,
       path_type := none, area := none, geometry := none,
       length_km := some 1 }] none none
    { id := 1, source_fid := none, route_code := none, name := none,
      path_type := none, area := none, geometry := none,
      length_km := some 1 } (by decide)).2.1

/-! ### Claim C4 -/

/-- C4 (confirmed): in fit_to_gpx a decoded frame contributes a track
point exactly when it is a 'record' data message with both position_lat
and position_long present; a record with only latitude, or with neither
coordinate, is dropped.  usablePoints is literally the filterMap of the
per-frame extraction over the frame stream. -/
theorem c4_theorem :
    (∀ fr : FitFrame, (frameToPoint fr).isSome = true ↔
      (fr.isData = true ∧ fr.name = "record" ∧
        fr.position_lat ≠ none ∧ fr.position_long ≠ none)) ∧
    (∀ frames, usablePoints frames = frames.filterMap frameToPoint) := by
  constructor
  · intro fr
    obtain ⟨d, nm, la, lo, al, ts⟩ := fr
    by_cases hnm : nm = "record" <;>
      cases d <;> cases la <;> cases lo <;> simp [frameToPoint, hnm]
  · intro frames
    rfl

/-- C4, witness: the characterisation at a lat-only record frame. -/
theorem c4_witness :
    (frameToPoint
      { isData := true, name := "record", position_lat := some 5,
        position_long := none, altitude := none,
        timestamp := none }).isSome = true ↔
      ((true : Bool) = true ∧ "record" = "record" ∧
        (some 5 : Option Int) ≠ none ∧ (none : Option Int) ≠ none) :=
  c4_theorem.1
    { isData := true, name := "record", position_lat := some 5,
      position_long := none, altitude := none, timestamp := none }

/-! ### Claim C5 -/

/-- C5 (confirmed): a .fit.gz whose decoded stream yields zero usable
points makes convert_fit_gz report failure with the no-GPS-points
message, write no GPX output, leave no temporary .fit file behind, and
keep the original; and on every failed conversion the temporary file is
gone and the original is untouched. -/
theorem c5_theorem :
    (∀ frames, usablePoints frames = [] →
      convert_fit_gz (FileData.gz (FileData.fit frames)) =
        { success := false, message := "No GPS points found in FIT file",
          gpxOut := none, tmpFinal := none, origRemoved := false }) ∧
    (∀ d, (convert_fit_gz d).success = false →
      (convert_fit_gz d).gpxOut = none ∧
      (convert_fit_gz d).tmpFinal = none ∧
      (convert_fit_gz d).origRemoved = false) := by
  constructor
  · intro frames h
    simp [convert_fit_gz, gunzip, fit_to_gpx, decodeFit, h]
  · intro d h
    cases d with
    | text s => simp [convert_fit_gz, gunzip]
    | fit fr => simp [convert_fit_gz, gunzip]
    | gz inner =>
      cases hf : fit_to_gpx inner with
      | error e => simp [convert_fit_gz, gunzip, hf]
      | ok g =>
        rw [convert_fit_gz] at h
        simp only [gunzip, hf] at h
        simp at h

/-- C5, witness: the zero-point branch at a lat-only frame stream, and
the failure guarantee at non-gzip content. -/
theorem c5_witness :
    convert_fit_gz (FileData.gz (FileData.fit
        [{ isData := true, name := "record", position_lat := some 5,
           position_long := none, altitude := none, timestamp := none }])) =
      { success := false, message := "No GPS points found in FIT file",
        gpxOut := none, tmpFinal := none, origRemoved := false } ∧
    ((convert_fit_gz (FileData.text "junk")).gpxOut = none ∧
     (convert_fit_gz (FileData.text "junk")).tmpFinal = none ∧
     (convert_fit_gz (FileData.text "junk")).origRemoved = false) :=
  ⟨c5_theorem.1 _ (by decide), c5_theorem.2 (FileData.text "junk") (by decide)⟩

/-! ### Claim C6 -/

/-- C6 (confirmed): get_paths keeps exactly the records whose area lies
in a non-empty area filter and whose path_type lies in a non-empty
path_type filter; an absent or empty filter list restricts nothing
(`if area:` is falsy on None and on the empty list, and SQL IN never
admits a NULL column value). -/
theorem c6_theorem (store : List PathRec) (a t : Option (List String))
    (p : PathRec) :
    p ∈ filterPaths store a t ↔
      p ∈ store ∧
      (∀ l, a = some l → l ≠ [] → ∃ v ∈ l, p.area = some v) ∧
      (∀ l, t = some l → l ≠ [] → ∃ v ∈ l, p.path_type = some v) := by
  cases a with
  | none =>
    cases t with
    | none => simp [filterPaths]
    | some lt =>
      by_cases hlt : lt.isEmpty
      · have : lt = [] := List.isEmpty_iff.mp hlt
        subst this
        simp [filterPaths]
      · have hne : lt ≠ [] := fun hc => hlt (by simp [hc])
        simp [filterPaths, hlt, List.mem_filter, hne]
  | some la =>
    by_cases hla : la.isEmpty
    · have : la = [] := List.isEmpty_iff.mp hla
      subst this
      cases t with
      | none => simp [filterPaths]
      | some lt =>
        by_cases hlt : lt.isEmpty
        · have : lt = [] := List.isEmpty_iff.mp hlt
          subst this
          simp [filterPaths]
        · have hne : lt ≠ [] := fun hc => hlt (by simp [hc])
          simp [filterPaths, hlt, List.mem_filter, hne]
    · have hnea : la ≠ [] := fun hc => hla (by simp [hc])
      cases t with
      | none => simp [filterPaths, hla, List.mem_filter, hnea]
      | some lt =>
        by_cases hlt : lt.isEmpty
        · have : lt = [] := List.isEmpty_iff.mp hlt
          subst this
          simp [filterPaths, hla, List.mem_filter, hnea]
        · have hne : lt ≠ [] := fun hc => hlt (by simp [hc])
          have hlaf : la.isEmpty = false := by
            cases h : la.isEmpty
            · rfl
            · exact absurd h hla
          have hltf : lt.isEmpty = false := by
            cases h : lt.isEmpty
            · rfl
            · exact absurd h hlt
          simp only [filterPaths, hlaf, hltf, Bool.false_eq_true, if_false,
            List.mem_filter, decide_eq_true_eq, Option.some_inj]
          constructor
          · rintro ⟨⟨hs, hA⟩, hT⟩
            refine ⟨hs, ?_, ?_⟩
            · rintro l rfl _
              exact hA
            · rintro l rfl _
              exact hT
          · rintro ⟨hs, hA, hT⟩
            exact ⟨⟨hs, hA la rfl hnea⟩, hT lt rfl hne⟩

/-- C6, witness: the filter characterisation at a singleton store and an
area filter containing its area. -/
theorem c6_witness :
    ({ id := 1, source_fid := none, route_code := none, name := none,
       path_type := some "Bridleway", area := some "North", geometry := none,
       length_km := none } : PathRec) ∈
      filterPaths
        [{ id := 1, source_fid := none, route_code := none, name := none,
           path_type := some "Bridleway", area := some "North",
           geometry := none, length_km := none }] (some ["North"]) none ↔
      ({ id := 1, source_fid := none, route_code := none, name := none,
         path_type := some "Bridleway", area := some "North", geometry := none,
         length_km := none } : PathRec) ∈
        [{ id := 1, source_fid := none, route_code := none, name := none,
           path_type := some "Bridleway", area := some "North",
           geometry := none, length_km := none }] ∧
      (∀ l, (some ["North"] : Option (List String)) = some l → l ≠ [] →
        ∃ v ∈ l, (some "North" : Option String) = some v) ∧
      (∀ l, (none : Option (List String)) = some l → l ≠ [] →
        ∃ v ∈ l, (some "Bridleway" : Option String) = some v) :=
  c6_theorem
    [{ id := 1, source_fid := none, route_code := none, name := none,
       path_type := some "Bridleway", area := some "North", geometry := none,
       length_km := none }] (some ["North"]) none
    { id := 1, source_fid := none, route_code := none, name := none,
      path_type := some "Bridleway", area := some "North", geometry := none,
      length_km := none }

/-! ### Claim C7 -/

theorem pairwise_filterMap_mono {α β : Type} (l : List α) (R : α → α → Prop)
    (S : β → β → Prop) (f : α → Option β)
    (hf : ∀ a b x y, R a b → f a = some x → f b = some y → S x y)
    (h : l.Pairwise R) : (l.filterMap f).Pairwise S := by
  induction l with
  | nil => simp
  | cons a t ih =>
    rw [List.filterMap_cons]
    rcases h with _ | ⟨ha, ht⟩
    cases hfa : f a with
    | none => exact ih ht
    | some x =>
      refine List.Pairwise.cons ?_ (ih ht)
      intro y hy
      obtain ⟨b, hb, hfb⟩ := List.mem_filterMap.mp hy
      exact hf a b x y (ha b hb) hfa hfb

theorem truthy_distinctSorted (vals : List (Option String)) :
    "" ∉ (distinctSorted vals).filterMap truthyStr ∧
    ((distinctSorted vals).filterMap truthyStr).Sorted (· < ·) := by
  constructor
  · intro h
    obtain ⟨o, _, ho⟩ := List.mem_filterMap.mp h
    cases o with
    | none => simp [truthyStr] at ho
    | some s =>
      by_cases hs : s = "" <;> simp [truthyStr, hs] at ho
  · have hsorted : (distinctSorted vals).Sorted optLE :=
      List.sorted_insertionSort optLE vals.dedup
    have hnodup : (distinctSorted vals).Nodup :=
      (List.perm_insertionSort optLE vals.dedup).nodup_iff.mpr
        (List.nodup_dedup vals)
    have hpair : (distinctSorted vals).Pairwise
        (fun a b => optLE a b ∧ a ≠ b) := hsorted.and hnodup
    refine pairwise_filterMap_mono _ _ _ _ ?_ hpair
    rintro a b x y ⟨hle, hne⟩ hfa hfb
    have hax : a = some x := by
      cases a with
      | none => simp [truthyStr] at hfa
      | some s =>
        by_cases hs : s = "" <;> simp [truthyStr, hs] at hfa
        rw [hfa]
    have hby : b = some y := by
      cases b with
      | none => simp [truthyStr] at hfb
      | some s =>
        by_cases hs : s = "" <;> simp [truthyStr, hs] at hfb
        rw [hfb]
    subst hax
    subst hby
    exact lt_of_le_of_ne hle (fun hc => hne (by rw [hc]))

/-- C7 (confirmed): get_path_types and get_areas return sequences with no
null and no empty-string entries, strictly sorted in ascending order. -/
theorem c7_theorem (store : List PathRec) :
    ("" ∉ get_path_types store ∧ (get_path_types store).Sorted (· < ·)) ∧
    ("" ∉ get_areas store ∧ (get_areas store).Sorted (· < ·)) := by
  unfold get_path_types get_areas
  exact ⟨truthy_distinctSorted (store.map (fun p => p.path_type)),
    truthy_distinctSorted (store.map (fun p => p.area))⟩

/-- C7, witness: the guarantees at the empty store. -/
theorem c7_witness :
    "" ∉ get_path_types [] ∧ (get_path_types []).Sorted (· < ·) :=
  (c7_theorem []).1

/-! ### Claim C8 -/

/-- C8 (confirmed): the semicircle conversion in fit_to_gpx is
value * 180 / 2^31 (the code's value * (180 / 2**31), whose float
constant is exact); in particular 2^31 semicircles convert to exactly
180 degrees, and a complete record frame gets exactly these converted
coordinates. -/
theorem c8_theorem :
    (∀ v : ℤ, semicircleToDeg v = (v : ℚ) * 180 / 2 ^ 31) ∧
    semicircleToDeg (2 ^ 31) = 180 ∧
    (∀ (fr : FitFrame) (la lo : ℤ), fr.isData = true → fr.name = "record" →
      fr.position_lat = some la → fr.position_long = some lo →
      ∃ pt, frameToPoint fr = some pt ∧ pt.lat = semicircleToDeg la ∧
        pt.lon = semicircleToDeg lo) := by
  refine ⟨?_, ?_, ?_⟩
  · intro v
    rw [semicircleToDeg]
    ring
  · rw [semicircleToDeg]
    norm_num
  · intro fr la lo h1 h2 h3 h4
    refine ⟨{ lat := semicircleToDeg la, lon := semicircleToDeg lo,
              ele := fr.altitude, time := fr.timestamp }, ?_, rfl, rfl⟩
    simp [frameToPoint, h1, h2, h3, h4]

/-- C8, witness: the converted point at a frame holding 2^31 semicircle
latitude. -/
theorem c8_witness :
    ∃ pt, frameToPoint
        { isData := true, name := "record", position_lat := some (2 ^ 31),
          position_long := some 0, altitude := none, timestamp := none } =
        some pt ∧
      pt.lat = semicircleToDeg (2 ^ 31) ∧ pt.lon = semicircleToDeg 0 :=
  c8_theorem.2.2
    { isData := true, name := "record", position_lat := some (2 ^ 31),
      position_long := some 0, altitude := none, timestamp := none }
    (2 ^ 31) 0 rfl rfl rfl rfl

/-! ### Claim C9 -/

theorem dictGet_dictSet (m : List (String × GroupStat)) (k : String)
    (v : GroupStat) (q : String) :
    dictGet (dictSet m k v) q = if q = k then some v else dictGet m q := by
  induction m with
  | nil =>
    by_cases h : q = k
    · simp [dictSet, dictGet, h]
    · have hsymm : ¬ k = q := fun hc => h hc.symm
      simp [dictSet, dictGet, h, hsymm]
  | cons e t ih =>
    by_cases he : e.1 = k
    · by_cases h : q = k
      · simp [dictSet, he, dictGet, h]
      · have hkq : ¬ k = q := fun hc => h hc.symm
        have heq : ¬ e.1 = q := fun hc => h (by rw [← hc, he])
        simp [dictSet, he, dictGet, h, hkq, heq]
    · by_cases heq : e.1 = q
      · have h : ¬ q = k := fun hc => he (by rw [heq, hc])
        simp [dictSet, he, dictGet, heq, h]
      · simp [dictSet, he, dictGet, heq, ih]

theorem dictGet_foldl_dictSet (stat : Option String → GroupStat)
    (G : List (Option String)) (m : List (String × GroupStat)) (k : String) :
    dictGet (G.foldl (fun m g => dictSet m (pyOrUnknown g) (stat g)) m) k =
      (G.filter (fun g => pyOrUnknown g = k)).foldl
        (fun _ g => some (stat g)) (dictGet m k) := by
  induction G generalizing m with
  | nil => simp
  | cons g G2 ih =>
    rw [List.foldl_cons, ih, List.filter_cons]
    by_cases hg : pyOrUnknown g = k
    · rw [if_pos (by simpa using hg), List.foldl_cons,
        dictGet_dictSet, if_pos hg.symm]
    · rw [if_neg (by simpa using hg), dictGet_dictSet,
        if_neg (fun hc => hg hc.symm)]

theorem nodup_all_eq_singleton {α : Type} {l : List α} {a : α}
    (hn : l.Nodup) (hall : ∀ x ∈ l, x = a) (ha : a ∈ l) : l = [a] := by
  cases l with
  | nil => simp at ha
  | cons x t =>
    have hx : x = a := hall x (List.mem_cons_self _ _)
    subst hx
    have ht : t = [] := by
      rw [List.eq_nil_iff_forall_not_mem]
      intro y hy
      have hya : y = x := hall y (List.mem_cons_of_mem _ hy)
      subst hya
      exact (List.nodup_cons.mp hn).1 hy
    rw [ht]

/-- C9, counterexample: a group whose category value is the empty string
(not null) is keyed by the literal placeholder "Unknown", because Python's
`path_type or "Unknown"` fires on every falsy value. -/
theorem c9_counterexample :
    (by_type
        [{ id := 1, source_fid := none, route_code := none, name := none,
           path_type := some "", area := none, geometry := none,
           length_km := none }]).map Prod.fst = ["Unknown"] ∧
    ([{ id := 1, source_fid := none, route_code := none, name := none,
        path_type := some "", area := none, geometry := none,
        length_km := none }] : List PathRec).map (fun p => p.path_type) =
      [some ""] ∧
    (some "" : Option String) ≠ none := by
  refine ⟨by decide, by decide, by decide⟩

/-- C9 (amended): get_stats builds by_type and by_area by dict
assignment keyed by `value or "Unknown"` over the distinct category
values.  For every distinct category value g, the key pyOrUnknown g
equals "Unknown" exactly when g is null, the empty string, or the
literal string "Unknown"; whenever g is the only distinct value mapping
to its key, the entry at that key is exactly g's group count and group
sum rounded to 3 decimals.  Lookups follow dict-overwrite semantics: the
entry at a key is the group statistic of the last distinct value
assigned to it (in group iteration order), so colliding "Unknown"-keyed
groups clobber each other rather than merge. -/
theorem c9_theorem (store : List PathRec) :
    ((get_stats store).byType = by_type store ∧
     (get_stats store).byArea = by_area store) ∧
    ((∀ k, dictGet (by_type store) k =
        ((store.map (fun p => p.path_type)).dedup.filter
            (fun g => pyOrUnknown g = k)).foldl
          (fun _ g => some (groupStat store (fun p => p.path_type) g)) none) ∧
     (∀ k, dictGet (by_area store) k =
        ((store.map (fun p => p.area)).dedup.filter
            (fun g => pyOrUnknown g = k)).foldl
          (fun _ g => some (groupStat store (fun p => p.area) g)) none)) ∧
    (∀ g ∈ (store.map (fun p => p.path_type)).dedup,
      (pyOrUnknown g = "Unknown" ↔
        g = none ∨ g = some "" ∨ g = some "Unknown") ∧
      ((∀ g2 ∈ (store.map (fun p => p.path_type)).dedup,
          pyOrUnknown g2 = pyOrUnknown g → g2 = g) →
        dictGet (by_type store) (pyOrUnknown g) =
          some (groupStat store (fun p => p.path_type) g))) ∧
    (∀ g ∈ (store.map (fun p => p.area)).dedup,
      (pyOrUnknown g = "Unknown" ↔
        g = none ∨ g = some "" ∨ g = some "Unknown") ∧
      ((∀ g2 ∈ (store.map (fun p => p.area)).dedup,
          pyOrUnknown g2 = pyOrUnknown g → g2 = g) →
        dictGet (by_area store) (pyOrUnknown g) =
          some (groupStat store (fun p => p.area) g))) := by
  have hlookT : ∀ k, dictGet (by_type store) k =
      ((store.map (fun p => p.path_type)).dedup.filter
          (fun g => pyOrUnknown g = k)).foldl
        (fun _ g => some (groupStat store (fun p => p.path_type) g)) none := by
    intro k
    rw [by_type]
    exact dictGet_foldl_dictSet
      (fun g => groupStat store (fun p => p.path_type) g)
      ((store.map (fun p => p.path_type)).dedup) [] k
  have hlookA : ∀ k, dictGet (by_area store) k =
      ((store.map (fun p => p.area)).dedup.filter
          (fun g => pyOrUnknown g = k)).foldl
        (fun _ g => some (groupStat store (fun p => p.area) g)) none := by
    intro k
    rw [by_area]
    exact dictGet_foldl_dictSet
      (fun g => groupStat store (fun p => p.area) g)
      ((store.map (fun p => p.area)).dedup) [] k
  have hiff : ∀ g : Option String, pyOrUnknown g = "Unknown" ↔
      g = none ∨ g = some "" ∨ g = some "Unknown" := by
    intro g
    cases g with
    | none => simp [pyOrUnknown]
    | some s =>
      by_cases hs : s = ""
      · simp [pyOrUnknown, hs]
      · simp [pyOrUnknown, hs]
  refine ⟨⟨rfl, rfl⟩, ⟨hlookT, hlookA⟩, ?_, ?_⟩
  · intro g hg
    refine ⟨hiff g, fun huniq => ?_⟩
    rw [hlookT (pyOrUnknown g)]
    have hfil : (store.map (fun p => p.path_type)).dedup.filter
        (fun g2 => pyOrUnknown g2 = pyOrUnknown g) = [g] := by
      refine nodup_all_eq_singleton ((List.nodup_dedup _).filter _) ?_ ?_
      · intro x hx
        rw [List.mem_filter] at hx
        exact huniq x hx.1 (by simpa using hx.2)
      · rw [List.mem_filter]
        exact ⟨hg, by simp⟩
    rw [hfil]
    rfl
  · intro g hg
    refine ⟨hiff g, fun huniq => ?_⟩
    rw [hlookA (pyOrUnknown g)]
    have hfil : (store.map (fun p => p.area)).dedup.filter
        (fun g2 => pyOrUnknown g2 = pyOrUnknown g) = [g] := by
      refine nodup_all_eq_singleton ((List.nodup_dedup _).filter _) ?_ ?_
      · intro x hx
        rw [List.mem_filter] at hx
        exact huniq x hx.1 (by simpa using hx.2)
      · rw [List.mem_filter]
        exact ⟨hg, by simp⟩
    rw [hfil]
    rfl

/-- C9, witness: the amended characterisation at a one-record store with
path_type "T" — a collision-free key whose entry is exactly that group's
statistic. -/
theorem c9_witness :
    dictGet (by_type
        [{ id := 1, source_fid := none, route_code := none, name := none,
           path_type := some "T", area := some "A", geometry := none,
           length_km := none }]) (pyOrUnknown (some "T")) =
      some (groupStat
        [{ id := 1, source_fid := none, route_code := none, name := none,
           path_type := some "T", area := some "A", geometry := none,
           length_km := none }] (fun p => p.path_type) (some "T")) :=
  ((c9_theorem
    [{ id := 1, source_fid := none, route_code := none, name := none,
       path_type := some "T", area := some "A", geometry := none,
       length_km := none }]).2.2.1 (some "T") (by decide)).2 (by decide)

end Bridleway
